import Mathlib

/-!
Verification development for the `hydra` distributed consumer coordinator
(Rust crate under `src/hydra/src/core/`).

The embedding below translates the four source files —
`clients.rs`, `consumer.rs`, `config.rs`, `shards.rs` — into Lean.

Modelling conventions:
* DynamoDB attribute values are modelled by the two constructors the code
  constructs or parses (`S` string attributes, `N` numeric attributes);
  a DynamoDB item (`HashMap<String, AttributeValue>`) is an association list.
* `chrono::DateTime<Utc>` timestamps are modelled as `Int` (seconds);
  `chrono`'s `to_rfc3339` / serde text encoding is modelled by an injective
  decimal rendering `rfc3339Render` with parser `rfc3339Parse` (the external
  library's encoder/decoder pair is injective and mutually inverse;
  only that contract is used).
* `HashSet<String>` is modelled as `Finset String`.
* Rust `isize` values stored in the Maglev lookup table are modelled as `Int`,
  and the source's `*value as usize` cast is modelled by the two's-complement
  wrap `(v % 2^64).toNat`.
* The non-deterministic `rand::thread_rng` shuffles of `shards.rs` are made
  explicit: `calculate_owned_shards` takes the drawn permutations as a
  parameter.  The unbounded `loop` of `shards.rs` is given explicit fuel;
  `none` means the call did not return normally (it spun past the fuel, or a
  slice index panicked — every slice index of the source is modelled by a
  checked `get?`).
-/

/-- DynamoDB attribute value, restricted to the constructors used by the code:
`S` (string attribute) and `N` (numeric attribute). -/
inductive AttributeValue : Type
  | S : String → AttributeValue
  | N : String → AttributeValue
deriving DecidableEq, Repr

/-- A DynamoDB item: `HashMap<String, AttributeValue>` as an association list. -/
abbrev Item : Type := List (String × AttributeValue)

/-- `clients.rs`: `pub struct ClientRecord { id, last_update }` with
`last_update : DateTime<Utc>` modelled as `Int` seconds. -/
structure ClientRecord : Type where
  id : String
  last_update : Int
deriving DecidableEq, Repr

/-- Decimal digit to character (code point 48 + digit). -/
def digitChar (d : Nat) : Char :=
  Char.ofNat (48 + d % 10)

/-- Character to decimal digit (code points 48–57), anything else rejected. -/
def digitVal (c : Char) : Option Nat :=
  if 48 ≤ c.toNat ∧ c.toNat ≤ 57 then some (c.toNat - 48) else none

/-- Big-endian decimal digits of a natural number. -/
def natDigits (n : Nat) : List Char :=
  if n < 10 then [digitChar n]
  else natDigits (n / 10) ++ [digitChar (n % 10)]
termination_by n
decreasing_by
  exact Nat.div_lt_self (by omega) (by omega)

/-- Accumulating decimal parser over characters. -/
def parseDigitsFrom : Nat → List Char → Option Nat
  | acc, [] => some acc
  | acc, c :: cs =>
    match digitVal c with
    | none => none
    | some d => parseDigitsFrom (acc * 10 + d) cs

/-- Model of the external `chrono` text encoding of a timestamp
(`to_rfc3339` / serde serialization): an injective decimal rendering. -/
def rfc3339Render (t : Int) : String :=
  if t < 0 then String.mk ('-' :: natDigits t.natAbs)
  else String.mk (natDigits t.toNat)

/-- Character-list worker for `rfc3339Parse`. -/
def rfc3339ParseChars : List Char → Option Int
  | [] => none
  | c :: cs =>
    if c = '-' then (parseDigitsFrom 0 cs).map (fun n => -(Int.ofNat n))
    else (parseDigitsFrom 0 (c :: cs)).map (fun n => Int.ofNat n)

/-- Model of the external `chrono` text decoding of a timestamp
(serde deserialization), inverse to `rfc3339Render`. -/
def rfc3339Parse (s : String) : Option Int :=
  rfc3339ParseChars s.data

/-- `clients.rs` `ClientRecord::to_dynamodb_item`: serde with PascalCase field
renaming serializes `id` under key `"Id"` as a string attribute and
`last_update` under key `"LastUpdate"` as its text encoding. -/
def ClientRecord.to_dynamodb_item (r : ClientRecord) : Item :=
  [("Id", AttributeValue.S r.id),
   ("LastUpdate", AttributeValue.S (rfc3339Render r.last_update))]

/-- `clients.rs` `ClientRecord::from_dynamodb_item`: serde deserialization of
the two PascalCase fields; any missing or ill-typed field is an error. -/
def ClientRecord.from_dynamodb_item (item : Item) : Except String ClientRecord :=
  match item.lookup "Id", item.lookup "LastUpdate" with
  | some (AttributeValue.S i), some (AttributeValue.S lu) =>
    match rfc3339Parse lu with
    | some t => Except.ok { id := i, last_update := t }
    | none => Except.error "invalid LastUpdate"
  | _, _ => Except.error "invalid item"

/-- Mutable state of the Maglev claim loop of `shards.rs`
`Sharder::calculate_owned_shards`: the `lookup_table` (`Vec<isize>`), the
per-client `next` cursors (`Vec<usize>`), and the `assigned` counter. -/
structure ShardState : Type where
  lookup : List Int
  next : List Nat
  assigned : Nat
deriving DecidableEq, Repr

/-- The inner `while lookup_table[permutations[cidx][next_val]] > 0` scan of
`shards.rs` lines 74–77.  `rest` is the suffix of the client's permutation
from position `nv` on; the scan returns the final `next_val` together with
the slot it stopped at (a slot whose table value is `≤ 0`).  Running off the
end of the permutation models the slice-index panic (`none`). -/
def scanFree (lookup : List Int) : List Nat → Nat → Option (Nat × Nat)
  | [], _ => none
  | slot :: rest, nv =>
    match lookup.get? slot with
    | none => none
    | some v => if v > 0 then scanFree lookup rest (nv + 1) else some (nv, slot)

/-- One client's turn in the claim loop of `shards.rs` lines 70–85: read and
bump `next[cidx]`, scan its permutation for a slot whose table value is `≤ 0`,
write `cidx` there, bump `assigned`, and report whether `assigned` reached the
shard count `M`. -/
def claimClient (perms : List (List Nat)) (M : Nat) (cidx : Nat)
    (st : ShardState) : Option (ShardState × Bool) :=
  match st.next.get? cidx, perms.get? cidx with
  | some nv0, some perm =>
    match scanFree st.lookup (perm.drop nv0) nv0 with
    | none => none
    | some (nvF, slot) =>
      let lookup := st.lookup.set slot (cidx : Int)
      let next := st.next.set cidx (nvF + 1)
      let assigned := st.assigned + 1
      some (⟨lookup, next, assigned⟩, assigned == M)
  | _, _ => none

/-- The `for (cidx, _) in clients.0.iter().enumerate()` pass of `shards.rs`
lines 70–86: clients take turns in index order, breaking out as soon as every
shard has been claimed (`assigned_all`). -/
def claimRound (perms : List (List Nat)) (M : Nat) :
    List Nat → ShardState → Option (ShardState × Bool)
  | [], st => some (st, false)
  | cidx :: rest, st =>
    match claimClient perms M cidx st with
    | none => none
    | some (st', all) =>
      if all then some (st', true) else claimRound perms M rest st'

/-- The unbounded `loop { ... }` of `shards.rs` lines 68–91, with explicit
fuel: run rounds over client indices `0..N` until `assigned == M`.
`none` means the source did not return (fuel ran out, i.e. the loop spun, or a
slice index panicked inside a round). -/
def claimLoop (perms : List (List Nat)) (M N : Nat) :
    Nat → ShardState → Option ShardState
  | 0, _ => none
  | fuel + 1, st =>
    match claimRound perms M (List.range N) st with
    | none => none
    | some (st', true) => some st'
    | some (st', false) => claimLoop perms M N fuel st'

/-- The `client_position` scan of `shards.rs` lines 93–99: `client_position`
is initialized to `0` and set to the first index whose record id equals
`self.config.client_id`; if no record matches it stays `0`. -/
def findPosition (client_id : String) (clients : List ClientRecord) : Nat :=
  (clients.findIdx? (fun client => client_id == client.id)).getD 0

/-- The owned-set collection of `shards.rs` lines 101–107: for each lookup
slot, `*value as usize` (a two's-complement `isize → usize` cast, modelled by
`(v % 2^64).toNat`) is compared with `client_position`, and on a match
`shards[lidx]` is inserted into the `HashSet`.  `lookup` always has the same
length as `shards`, so the zip pairs `lookup[lidx]` with `shards[lidx]`. -/
def ownedFrom (lookup : List Int) (shards : List String) (pos : Nat) :
    Finset String :=
  (lookup.zip shards).foldl
    (fun acc p =>
      if ((p.1 % (2 ^ 64 : Int)).toNat) = pos then insert p.2 acc else acc)
    ∅

/-- `shards.rs` `Sharder::calculate_owned_shards`, with the `thread_rng`
permutation draws (`perms`, one permutation of `0..shards.length` per client)
and the loop fuel made explicit.  `client_id` is `self.config.client_id`.
Result `none` means the call did not return normally for that fuel. -/
def calculate_owned_shards (client_id : String) (clients : List ClientRecord)
    (shards : List String) (perms : List (List Nat)) (fuel : Nat) :
    Option (Finset String) :=
  let M := shards.length
  let st0 : ShardState :=
    ⟨List.replicate M (-1 : Int), List.replicate clients.length 0, 0⟩
  (claimLoop perms M clients.length fuel st0).map
    (fun st => ownedFrom st.lookup shards (findPosition client_id clients))

/-- `config.rs` `Config`, restricted to the fields `Hydra` inspects.  The AWS
clients and the consumer adapter are opaque external handles and carry no
data the validated code reads.  `client_name` is the worker id field that
`consumer.rs` reads as `self.config.client_name`. -/
structure HydraConfig : Type where
  buffer_size : Nat
  kinesis_stream_name : String
  checkpoints_table_name : String
  clients_table_name : String
  application_name : String
  client_name : String
deriving DecidableEq, Repr

/-- `consumer.rs` `Hydra::new` (lines 28–49): the construction-time validation.
Only the two table names are checked (the second check reuses the first
check's error message verbatim, as in the source); the stream name, worker
id, application name and `buffer_size` are never examined.  Channel creation
(`channel(c.buffer_size)`) is external `tokio` behaviour and not part of the
validation. -/
def hydra_new (c : HydraConfig) : Except String Unit :=
  if c.checkpoints_table_name = "" then
    Except.error "invalid checkpoints_table_name"
  else if c.clients_table_name = "" then
    Except.error "invalid checkpoints_table_name"
  else
    Except.ok ()

/-- `REGISTRATION_FREQUENCY_SEC` of `consumer.rs`, the heartbeat period `H`. -/
def REGISTRATION_FREQUENCY_SEC : Int := 5

/-- The per-row body of `consumer.rs` `Hydra::get_clients` (lines 132–150):
parse each scanned item, skip rows that fail to parse, and skip rows whose
`last_update` lies more than `3 · H = 15` seconds before `now` (the source
evaluates `Utc::now()` per row; it is modelled as a single `now`). -/
def collectRecords (now : Int) : List Item → List ClientRecord
  | [] => []
  | item :: rest =>
    match ClientRecord.from_dynamodb_item item with
    | Except.error _ => collectRecords now rest
    | Except.ok record =>
      if now - record.last_update > REGISTRATION_FREQUENCY_SEC * 3 then
        collectRecords now rest
      else
        record :: collectRecords now rest

/-- The comparison `a.id.cmp(&b.id)` used by the final sort of `get_clients`. -/
def clientIdLe (a b : ClientRecord) : Prop := a.id ≤ b.id

instance : DecidableRel clientIdLe :=
  fun a b => inferInstanceAs (Decidable (a.id ≤ b.id))

instance : IsTotal ClientRecord clientIdLe :=
  ⟨fun a b => le_total a.id b.id⟩

instance : IsTrans ClientRecord clientIdLe :=
  ⟨fun _ _ _ h1 h2 => le_trans h1 h2⟩

/-- `consumer.rs` `Hydra::get_clients` (lines 121–158): collect the fresh,
parseable rows of the strongly consistent scan, then sort ascending by id
(`sort_by(|a, b| a.id.cmp(&b.id))`; the source's stable merge sort is
modelled by insertion sort, which produces the same sorted output up to the
order of records with equal ids). -/
def get_clients (now : Int) (items : List Item) : List ClientRecord :=
  List.insertionSort clientIdLe (collectRecords now items)

/-- The DynamoDB `UpdateItem` request built by `consumer.rs`
`Hydra::register_client_self` (lines 161–193). -/
structure UpdateItemRequest : Type where
  table_name : String
  update_expression : String
  attribute_names : List (String × String)
  attribute_values : List (String × AttributeValue)
  key : List (String × AttributeValue)
deriving DecidableEq, Repr

/-- `consumer.rs` `Hydra::register_client_self` (lines 161–193): the request
it sends.  `now` stands for `Utc::now()` (the source calls it twice a few
instructions apart; both calls are modelled by the same instant) and `fmt`
for the external `chrono` `to_rfc3339` rendering.  Both `:LU` and `:TTL` are
built with `AttributeValue::N(... .to_rfc3339())` in the source, i.e. numeric
attributes holding RFC3339 text. -/
def register_client_self_request (clients_table_name client_name : String)
    (now : Int) (fmt : Int → String) : UpdateItemRequest :=
  let expiry_time := now + REGISTRATION_FREQUENCY_SEC * 3
  { table_name := clients_table_name
    update_expression := "SET #LU = :LU, #TTL = :TTL"
    attribute_names := [("#LU", "LastUpdate"), ("#TTL", "TTL")]
    attribute_values :=
      [(":LU", AttributeValue.N (fmt now)),
       (":TTL", AttributeValue.N (fmt expiry_time))]
    key := [("ID", AttributeValue.S client_name)] }

/-- Branch taken by the `select!` of `consumer.rs`
`Hydra::maintain_client_registration_self` (lines 231–254).  After the
cancellation token has fired, `cancelled()` stays ready, so any schedule of
branches with `cancelled` entries is realizable. -/
inductive SelectBranch : Type
  | cancelled : SelectBranch
  | tick : SelectBranch
deriving DecidableEq, Repr

/-- The `loop { select! { ... } }` of `consumer.rs` lines 231–254, driven by a
schedule of (branch, RPC success) pairs.  Returns the number of
`deregister_client_self` calls made and whether the loop exited.  The source
exits only through `return Err(...)` when a deregistration fails; a
successful deregistration falls through the `Ok(_) => {}` arm and iterates
again; a tick's registration result is ignored either way. -/
def maintain_loop : List (SelectBranch × Bool) → Nat × Bool
  | [] => (0, false)
  | (SelectBranch.cancelled, ok) :: rest =>
    if ok then
      let r := maintain_loop rest
      (r.1 + 1, r.2)
    else
      (1, true)
  | (SelectBranch.tick, _) :: rest => maintain_loop rest

/-! ## Helper lemmas -/

theorem digitVal_digitChar {d : Nat} (h : d < 10) : digitVal (digitChar d) = some d := by
  interval_cases d <;> rfl

theorem digitChar_ne_dash {d : Nat} (h : d < 10) : digitChar d ≠ '-' := by
  interval_cases d <;> decide

theorem parseDigitsFrom_append (l1 l2 : List Char) :
    ∀ acc : Nat, parseDigitsFrom acc (l1 ++ l2) =
      (parseDigitsFrom acc l1).bind (fun a => parseDigitsFrom a l2) := by
  induction l1 with
  | nil => intro acc; rfl
  | cons c cs ih =>
    intro acc
    simp only [List.cons_append, parseDigitsFrom]
    match digitVal c with
    | none => rfl
    | some d => exact ih _

theorem parseDigitsFrom_natDigits (n : Nat) :
    ∀ acc : Nat, parseDigitsFrom acc (natDigits n) =
      some (acc * 10 ^ (natDigits n).length + n) := by
  induction n using Nat.strong_induction_on with
  | _ n ih =>
    intro acc
    rw [natDigits]
    by_cases h : n < 10
    · simp only [if_pos h, parseDigitsFrom, digitVal_digitChar h, List.length_cons,
        List.length_nil]
      ring_nf
    · have hd : n / 10 < n := Nat.div_lt_self (by omega) (by omega)
      rw [if_neg h, parseDigitsFrom_append, ih (n / 10) hd acc]
      show parseDigitsFrom _ [digitChar (n % 10)] = _
      simp only [parseDigitsFrom, digitVal_digitChar (Nat.mod_lt n (by omega) : n % 10 < 10),
        List.length_append, List.length_cons, List.length_nil]
      congr 1
      have h2 : (acc * 10 ^ (natDigits (n / 10)).length + n / 10) * 10 + n % 10 =
          acc * 10 ^ ((natDigits (n / 10)).length + 1) + (n / 10 * 10 + n % 10) := by
        ring
      have h3 : n / 10 * 10 + n % 10 = n := by omega
      rw [h2, h3]

theorem natDigits_head (n : Nat) :
    ∃ d cs, d < 10 ∧ natDigits n = digitChar d :: cs := by
  induction n using Nat.strong_induction_on with
  | _ n ih =>
    rw [natDigits]
    by_cases h : n < 10
    · exact ⟨n, [], h, by simp [if_pos h]⟩
    · have hd : n / 10 < n := Nat.div_lt_self (by omega) (by omega)
      obtain ⟨d, cs, hdlt, heq⟩ := ih (n / 10) hd
      exact ⟨d, cs ++ [digitChar (n % 10)], hdlt, by simp [if_neg h, heq]⟩

/-- The modelled `chrono` encoder/decoder pair is mutually inverse. -/
theorem rfc3339_roundtrip (t : Int) : rfc3339Parse (rfc3339Render t) = some t := by
  rw [rfc3339Parse]
  by_cases h : t < 0
  · have hdata : (rfc3339Render t).data = '-' :: natDigits t.natAbs := by
      rw [rfc3339Render, if_pos h]
    rw [hdata]
    simp [rfc3339ParseChars, parseDigitsFrom_natDigits]
    simp [abs_of_neg h]
  · have hdata : (rfc3339Render t).data = natDigits t.toNat := by
      rw [rfc3339Render, if_neg h]
    rw [hdata]
    obtain ⟨d, cs, hdlt, heq⟩ := natDigits_head t.toNat
    rw [heq]
    simp [rfc3339ParseChars, digitChar_ne_dash hdlt, ← heq, parseDigitsFrom_natDigits]
    omega

/-- Every record that survives the per-row filter of `get_clients` is fresh. -/
theorem collectRecords_fresh (now : Int) :
    ∀ (items : List Item) (r : ClientRecord), r ∈ collectRecords now items →
      now - r.last_update ≤ REGISTRATION_FREQUENCY_SEC * 3 := by
  intro items
  induction items with
  | nil => intro r hr; simp [collectRecords] at hr
  | cons item rest ih =>
    intro r hr
    rw [collectRecords] at hr
    split at hr
    · exact ih r hr
    · split at hr
      · exact ih r hr
      · rename_i hstale
        rcases List.mem_cons.mp hr with heq | hmem
        · subst heq; omega
        · exact ih r hmem

/-- With zero clients the `for` body of the claim loop never executes, so the
`assigned == shards.len()` exit is unreachable and the `loop` spins forever:
no fuel suffices. -/
theorem claimLoop_zero_clients (perms : List (List Nat)) (M : Nat) :
    ∀ (fuel : Nat) (st : ShardState), claimLoop perms M 0 fuel st = none := by
  intro fuel
  induction fuel with
  | zero => intro st; rfl
  | succ n ih =>
    intro st
    simp [claimLoop, claimRound, List.range_zero]
    exact ih st

/-! ## Claims -/

/-- C1.  The claim says `calculate_owned_shards` assigns each shard to exactly
one client for every fixed non-empty sorted client list and non-empty shard
list.  It is false on the code: with clients `[a, b]` (sorted, self present)
and shards `[s0, s1]`, the `thread_rng` draw in which both clients receive the
identity permutation of `0..2` makes client `b` steal slot 0 from client `a`
(the `while` guard tests `> 0`, so a slot claimed by client index 0 looks
free), while the double-counted `assigned` reaches `shards.len()` and exits
the loop with slot 1 still at `-1`.  The union of the two locally computed
owned sets is `{s0}`, not `{s0, s1}`: shard `s1` belongs to no client.  Both
drawn permutations are genuine permutations of `List.range 2`, so the run is
realizable. -/
theorem calculate_owned_shards_misses_a_shard :
    calculate_owned_shards "a"
        [{ id := "a", last_update := 0 }, { id := "b", last_update := 0 }]
        ["s0", "s1"] [[0, 1], [0, 1]] 4 = some ∅ ∧
    calculate_owned_shards "b"
        [{ id := "a", last_update := 0 }, { id := "b", last_update := 0 }]
        ["s0", "s1"] [[0, 1], [0, 1]] 4 = some {"s0"} ∧
    ((∅ ∪ {"s0"} : Finset String) ≠ {"s0", "s1"}) ∧
    ([[0, 1], [0, 1]] : List (List Nat)).all
      (fun p => decide (p.Perm (List.range 2))) = true := by
  decide

/-- C2.  The claim says `calculate_owned_shards` is deterministic because each
client's permutation depends only on the `(client_id, shard count)` pair.  It
is false on the code: the permutations are drawn from `rand::thread_rng()`
with no dependence on the client id or the shard count, so two runs on
identical `(clients, shards)` inputs and the same self id can draw different
permutations and compute different owned sets.  Both draws below consist of
genuine permutations of `List.range 2`, yet peer `a` computes `{s0}` in one
run and `{s1}` in the other. -/
theorem calculate_owned_shards_not_deterministic :
    calculate_owned_shards "a"
        [{ id := "a", last_update := 0 }, { id := "b", last_update := 0 }]
        ["s0", "s1"] [[0, 1], [1, 0]] 4 = some {"s0"} ∧
    calculate_owned_shards "a"
        [{ id := "a", last_update := 0 }, { id := "b", last_update := 0 }]
        ["s0", "s1"] [[1, 0], [0, 1]] 4 = some {"s1"} ∧
    (({"s0"} : Finset String) ≠ {"s1"}) ∧
    ([[0, 1], [1, 0], [1, 0], [0, 1]] : List (List Nat)).all
      (fun p => decide (p.Perm (List.range 2))) = true := by
  decide

/-- C3.  The claim says that when `self.client_id` does not occur in the
clients list the returned owned set is empty.  It is false on the code: the
`client_position` scan initializes the position to `0` and leaves it there
when no record matches, so an unregistered worker adopts the owned set of the
client at index 0.  With self id `"z"`, clients `[a]` and shards `[s0]` the
code returns `{s0}`, not `∅`. -/
theorem calculate_owned_shards_missing_self_not_empty :
    calculate_owned_shards "z" [{ id := "a", last_update := 0 }]
        ["s0"] [[0]] 4 = some {"s0"} ∧
    (some ({"s0"} : Finset String) ≠ some (∅ : Finset String)) := by
  decide

/-- C4.  The claim says `calculate_owned_shards` returns the empty owned set
whenever the clients list or the shards list is empty.  It is false on the
code, which never returns on those inputs: with an empty clients list the
`for` body never runs, no `assigned == shards.len()` check is ever reached,
and the outer `loop` spins forever (first conjunct: `none` for every fuel);
with a non-empty clients list and an empty shards list every permutation is
the shuffle of an empty index vector, and the first evaluation of
`permutations[cidx][next_val]` indexes an empty `Vec` and panics (second
conjunct: `none` for every fuel). -/
theorem calculate_owned_shards_empty_inputs_no_return :
    (∀ (cid : String) (shards : List String) (perms : List (List Nat)) (fuel : Nat),
        calculate_owned_shards cid [] shards perms fuel = none) ∧
    (∀ (cid : String) (clients : List ClientRecord) (fuel : Nat), clients ≠ [] →
        calculate_owned_shards cid clients []
          (List.replicate clients.length []) fuel = none) := by
  constructor
  · intro cid shards perms fuel
    simp [calculate_owned_shards, claimLoop_zero_clients]
  · intro cid clients fuel hne
    match clients with
    | [] => exact absurd rfl hne
    | c :: cs =>
      match fuel with
      | 0 => rfl
      | fuel + 1 =>
        simp [calculate_owned_shards, claimLoop, List.range_succ_eq_map,
              claimRound, claimClient, List.replicate_succ, scanFree]

/-- Witness for C4 at concrete inputs: one worker id, one shard (empty
clients) and one client (empty shards). -/
theorem calculate_owned_shards_empty_inputs_no_return_witness :
    calculate_owned_shards "w" [] ["s0"] [[0]] 5 = none ∧
    calculate_owned_shards "w" [{ id := "a", last_update := 0 }] [] [[]] 5 = none :=
  ⟨calculate_owned_shards_empty_inputs_no_return.1 "w" ["s0"] [[0]] 5,
   calculate_owned_shards_empty_inputs_no_return.2 "w"
     [{ id := "a", last_update := 0 }] 5 (List.cons_ne_nil _ _)⟩

/-- C5.  The claim says each owned set has at most `⌈M/N⌉` shards and that
with 2 clients and 4 shards each client owns exactly 2.  The second part is
false on the code (and with it the source comment that the loop "ensures each
client gets an equal number of shards"): when both `thread_rng` draws are the
identity permutation of `0..4`, client `b` steals both of client `a`'s claimed
slots (the `while` guard `> 0` treats slots owned by client index 0 as free),
`assigned` reaches 4 early, and the table is `[1, 1, -1, -1]`: client `a`
owns 0 shards, client `b` owns 2, and shards `s2, s3` are owned by nobody. -/
theorem calculate_owned_shards_unbalanced :
    calculate_owned_shards "a"
        [{ id := "a", last_update := 0 }, { id := "b", last_update := 0 }]
        ["s0", "s1", "s2", "s3"] [[0, 1, 2, 3], [0, 1, 2, 3]] 8 = some ∅ ∧
    calculate_owned_shards "b"
        [{ id := "a", last_update := 0 }, { id := "b", last_update := 0 }]
        ["s0", "s1", "s2", "s3"] [[0, 1, 2, 3], [0, 1, 2, 3]] 8 =
      some {"s1", "s0"} ∧
    (Finset.card (∅ : Finset String) ≠ 2) ∧
    ([[0, 1, 2, 3], [0, 1, 2, 3]] : List (List Nat)).all
      (fun p => decide (p.Perm (List.range 4))) = true :=
  ⟨by decide, rfl, by decide, by decide⟩

/-- C6.  The claim says that on cancellation the registration maintenance
loop calls `deregister_self` exactly once and then exits.  It is false on the
code: the `Ok(_) => {}` arm of the cancellation branch neither returns nor
breaks, so after a successful deregistration the `loop` re-enters `select!`,
the already-fired cancellation token is immediately ready again, and
`deregister_client_self` is called again — for every `n`, a schedule of `n`
successful post-cancellation deregistrations performs `n` calls and still has
not exited.  The only exit from the loop is a deregistration failure, which
returns an error. -/
theorem maintain_loop_repeats_deregistration :
    ∀ n : Nat,
      maintain_loop (List.replicate n (SelectBranch.cancelled, true)) = (n, false) := by
  intro n
  induction n with
  | zero => rfl
  | succ k ih => simp [List.replicate_succ, maintain_loop, ih]

/-- C7.  `get_clients` never returns a record whose `last_update` is more than
`3·H = 15` seconds before `now` (rows failing the freshness test are skipped),
and the returned list is sorted ascending by id, for every list of scanned
rows. -/
theorem get_clients_fresh_and_sorted (now : Int) (items : List Item) :
    (∀ r ∈ get_clients now items, now - r.last_update ≤ 15) ∧
      (get_clients now items).Sorted clientIdLe := by
  constructor
  · intro r hr
    rw [get_clients, List.mem_insertionSort] at hr
    exact collectRecords_fresh now items r hr
  · exact List.sorted_insertionSort clientIdLe (collectRecords now items)

/-- C8 counterexample.  The claim says construction returns a `ConfigInvalid`
error whenever any required field is empty, naming also the stream name and
the worker id.  On the code a configuration with an empty stream name and an
empty worker id (but non-empty table names) passes validation. -/
theorem hydra_new_accepts_invalid_config :
    hydra_new { buffer_size := 1, kinesis_stream_name := "",
                checkpoints_table_name := "ck", clients_table_name := "cl",
                application_name := "", client_name := "" } = Except.ok () ∧
    HydraConfig.kinesis_stream_name
      { buffer_size := 1, kinesis_stream_name := "",
        checkpoints_table_name := "ck", clients_table_name := "cl",
        application_name := "", client_name := "" } = "" :=
  ⟨rfl, rfl⟩

/-- C8 amended.  `Hydra::new` returns an error exactly when the checkpoints
table name or the clients table name is the empty string; the stream name,
worker id, application name and `buffer_size` are not validated at
construction. -/
theorem hydra_new_ok_iff_table_names_nonempty (c : HydraConfig) :
    hydra_new c = Except.ok () ↔
      (c.checkpoints_table_name ≠ "" ∧ c.clients_table_name ≠ "") := by
  unfold hydra_new
  split
  · simp_all
  · split <;> simp_all

/-- C9.  The claim says `register_self` stores `LastUpdate` as an RFC3339
string attribute and `TTL` as an epoch-seconds numeric attribute.  It is
false on the code: for every table name, worker id, clock reading and
formatting function, the built `UpdateItem` request stores BOTH `:LU` and
`:TTL` as numeric (`N`) attributes whose payload is the RFC3339 rendering —
`LastUpdate` is not a string (`S`) attribute, and `TTL` holds RFC3339 text of
`now + 15` rather than an epoch-seconds number.  Only the `ID` key part of
the claim holds. -/
theorem register_client_self_numeric_rfc3339
    (clients_table_name client_name : String) (now : Int) (fmt : Int → String) :
    (register_client_self_request clients_table_name client_name now fmt).attribute_values =
      [(":LU", AttributeValue.N (fmt now)),
       (":TTL", AttributeValue.N (fmt (now + 15)))] ∧
    (∀ s : String, AttributeValue.N (fmt now) ≠ AttributeValue.S s) ∧
    (register_client_self_request clients_table_name client_name now fmt).key =
      [("ID", AttributeValue.S client_name)] := by
  refine ⟨rfl, ?_, rfl⟩
  intro s h
  exact AttributeValue.noConfusion h

/-- C10.  `ClientRecord` serialization round-trips: serde writes `id` and
`last_update` under the PascalCase keys `"Id"` and `"LastUpdate"` as string
attributes, and deserialization reads the same keys back, with the timestamp
encoder and decoder mutually inverse, so every record survives
`to_dynamodb_item` followed by `from_dynamodb_item` unchanged. -/
theorem client_record_roundtrip (r : ClientRecord) :
    ClientRecord.from_dynamodb_item (ClientRecord.to_dynamodb_item r) =
      Except.ok r := by
  simp [ClientRecord.from_dynamodb_item, ClientRecord.to_dynamodb_item, List.lookup,
    rfc3339_roundtrip]

